import Mathlib

/-!
# LLMChessArena — verification of the move-arbitration loop

Shallow embedding of `src/llmchessarena/game.py` together with the parts of
its rules-engine dependency (the `python-chess` library) that the game loop
observes: `chess.Move.from_uci`, `chess.Board.is_legal`, `chess.Board.outcome`
/ `is_game_over` / `result`, and the terminal predicates. The generative
models (`llama_cpp.Llama`) and the board internals are opaque; they appear as
parameters (`LLMResult` streams, the `Engine` record of oracle capabilities).
-/

set_option autoImplicit false

namespace LLMChessArena

/-! ## Moves and the UCI parser (python-chess `chess.Move`, `Move.from_uci`) -/

/-- Embedding of `chess.Move`: squares are indices `0..63` into
`chess.SQUARE_NAMES`, promotion/drop are indices into `chess.PIECE_SYMBOLS`. -/
structure Move where
  from_square : Nat
  to_square : Nat
  promotion : Option Nat
  drop : Option Nat
deriving DecidableEq, Repr

/-- Embedding of `chess.Move.null()`: `Move(0, 0)`. -/
def Move.null : Move := ⟨0, 0, none, none⟩

/-- Python truthiness of an optional piece index (`None` and `0` are falsy). -/
def optNatTruthy : Option Nat → Bool
  | none => false
  | some n => decide (n ≠ 0)

/-- Embedding of `chess.Move.__bool__`:
`bool(from_square or to_square or promotion or drop)`. -/
def Move.toBool (m : Move) : Bool :=
  decide (m.from_square ≠ 0) || decide (m.to_square ≠ 0) ||
    optNatTruthy m.promotion || optNatTruthy m.drop

/-- Python `list.index`, returning `none` instead of raising `ValueError`. -/
def pyIndex {α : Type} [DecidableEq α] : List α → α → Option Nat
  | [], _ => none
  | y :: ys, x => if y = x then some 0 else (pyIndex ys x).map (· + 1)

/-- Embedding of `chess.FILE_NAMES` (as characters). -/
def FILE_NAMES : List Char := ['a', 'b', 'c', 'd', 'e', 'f', 'g', 'h']

/-- Embedding of `chess.RANK_NAMES` (as characters). -/
def RANK_NAMES : List Char := ['1', '2', '3', '4', '5', '6', '7', '8']

/-- Embedding of `chess.SQUARE_NAMES = [f + r for r in RANK_NAMES for f in FILE_NAMES]`,
each name kept as its two characters. -/
def SQUARE_NAMES : List (List Char) :=
  RANK_NAMES.flatMap (fun r => FILE_NAMES.map (fun f => [f, r]))

/-- Lookup `chess.SQUARE_NAMES.index(...)` on a candidate square name. -/
def square_index (sq : List Char) : Option Nat := pyIndex SQUARE_NAMES sq

/-- Embedding of `chess.PIECE_SYMBOLS = [None, "p", "n", "b", "r", "q", "k"]`. -/
def PIECE_SYMBOLS : List (Option Char) :=
  [none, some 'p', some 'n', some 'b', some 'r', some 'q', some 'k']

/-- Lookup `chess.PIECE_SYMBOLS.index(c)` for a one-character symbol `c`. -/
def piece_index (c : Char) : Option Nat := pyIndex PIECE_SYMBOLS (some c)

/-- The drop branch of `chess.Move.from_uci`:
`drop = PIECE_SYMBOLS.index(uci[0].lower()); square = SQUARE_NAMES.index(uci[2:])`,
with either lookup failure raising (`none`). -/
def parse_drop (p : Char) (sq : List Char) : Option Move :=
  match piece_index p.toLower, square_index sq with
  | some d, some s => some ⟨s, s, none, some d⟩
  | _, _ => none

/-- The square-pair branch of `chess.Move.from_uci`:
`from_square = SQUARE_NAMES.index(uci[0:2]); to_square = SQUARE_NAMES.index(uci[2:4])`,
`promo` the already-looked-up promotion (`some none` when absent, `none` when
its lookup raised), then the `from_square == to_square` rejection. -/
def parse_squares (fr dst : List Char) (promo : Option (Option Nat)) :
    Option Move :=
  match square_index fr, square_index dst, promo with
  | some f, some t, some pr =>
    if f = t then none else some ⟨f, t, pr, none⟩
  | _, _, _ => none

/-- Embedding of `chess.Move.from_uci` on the character list of the token.
`none` models the raised `InvalidMoveError` (a `ValueError`). Branches in
source order: the `"0000"` null move, the `len == 4 and "@" == uci[1]` drop
form, then the `4 <= len(uci) <= 5` square-pair form. -/
def Move.from_uci_chars (cs : List Char) : Option Move :=
  if cs = ['0', '0', '0', '0'] then some Move.null
  else if cs.length = 4 ∧ cs.get? 1 = some '@' then
    parse_drop (cs.headD ' ') (cs.drop 2)
  else if 4 ≤ cs.length ∧ cs.length ≤ 5 then
    parse_squares (cs.take 2) ((cs.drop 2).take 2)
      (if cs.length = 5 then (piece_index (cs.getD 4 ' ')).map some
       else some none)
  else none

/-- Embedding of `chess.Move.from_uci`, as called at `game.py` line 124. -/
def Move.from_uci (uci : String) : Option Move := Move.from_uci_chars uci.data

/-! ## Spec-side move-format predicates -/

/-- A lowercase file letter `a`–`h`. -/
def isFileChar (c : Char) : Bool := "abcdefgh".data.contains c

/-- A rank digit `1`–`8`. -/
def isRankChar (c : Char) : Bool := "12345678".data.contains c

/-- A lowercase piece letter accepted as a promotion / drop symbol. -/
def isPromoChar (c : Char) : Bool := "pnbrqk".data.contains c

/-- The spec's move format, as the spec words it: four characters minimum
(source square then destination square), optional fifth character for a
promotion piece, square letters case-insensitive, ranks 1–8, files a–h.
The spec does not enumerate the valid promotion letters; we take the set the
code accepts, case-insensitively in keeping with the sentence. -/
def specMoveFormat (uci : String) : Bool :=
  match uci.data with
  | [a, b, c, d] =>
    isFileChar a.toLower && isRankChar b && isFileChar c.toLower && isRankChar d
  | [a, b, c, d, e] =>
    isFileChar a.toLower && isRankChar b && isFileChar c.toLower && isRankChar d
      && isPromoChar e.toLower
  | _ => false

/-- The exact acceptance condition of `Move.from_uci`: the token `0000`, a
four-character drop (case-insensitive piece letter, `@`, lowercase square), or
a lowercase source square and a distinct lowercase destination square with an
optional lowercase promotion letter. -/
def uciAccepts (uci : String) : Bool :=
  match uci.data with
  | [a, b, c, d] =>
    if a = '0' ∧ b = '0' ∧ c = '0' ∧ d = '0' then true
    else if b = '@' then
      isPromoChar a.toLower && (isFileChar c && isRankChar d)
    else
      (isFileChar a && isRankChar b) &&
        ((isFileChar c && isRankChar d) && !(a == c && b == d))
  | [a, b, c, d, e] =>
    (isFileChar a && isRankChar b) &&
      ((isFileChar c && isRankChar d) &&
        (isPromoChar e && !(a == c && b == d)))
  | _ => false


/-! ## The Proposal Source call and move-text extraction (`get_llm_move`) -/

/-- One Proposal Source invocation, seen from the loop: either a stream of
generated model tokens (each an opaque piece of text), or a raised exception
with its message. -/
inductive LLMResult
  | ok (tokens : List (List Char))
  | err (msg : String)

/-- Membership in the `stop=["\n", " "]` argument of the `llama_cpp` call. -/
def is_stop_char (c : Char) : Bool := c == '\n' || c == ' '

/-- The completion text returned by `model(prompt, max_tokens=10,
stop=["\n", " "])` at `game.py` line 72: generation is cut at 10 model
tokens, and the returned text is what precedes the first stop string. -/
def llama_text (tokens : List (List Char)) : List Char :=
  ((tokens.take 10).flatten).takeWhile (fun c => !is_stop_char c)

/-- Python `str.strip()` on a character list. -/
def strip_chars (l : List Char) : List Char :=
  ((l.dropWhile Char.isWhitespace).reverse.dropWhile Char.isWhitespace).reverse

/-- Embedding of `get_llm_move` (`game.py` lines 62–76): the `.strip()`-ped
completion text on success, the literal `"error"` when the model call throws
(the `except Exception` branch). -/
def get_llm_move : LLMResult → String
  | .ok tokens => ⟨strip_chars (llama_text tokens)⟩
  | .err _ => "error"

/-- Modelled from the spec: the first whitespace-delimited token of a text,
taken up to the first line break. -/
def first_ws_token (l : List Char) : List Char :=
  ((l.takeWhile (fun c => !(c == '\n'))).dropWhile Char.isWhitespace).takeWhile
    (fun c => !c.isWhitespace)


/-! ## The Rules Oracle (`chess.Board` of python-chess) -/

/-- The capabilities of the rules engine that `game.py` consumes, over an
opaque board-state type `σ`. Primitive fields are the `chess.Board` methods
the observed derived queries bottom out in; `pseudo_legal_rest` is the body
of `Board.is_pseudo_legal` after its leading null-move rejection, and
`has_legal_move` is `any(Board.generate_legal_moves())`. `turn` is
`Board.turn` with `true = chess.WHITE`. -/
structure Engine (σ : Type) where
  turn : σ → Bool
  push : σ → Move → σ
  is_variant_end : σ → Bool
  is_variant_loss : σ → Bool
  is_variant_win : σ → Bool
  is_variant_draw : σ → Bool
  is_check : σ → Bool
  has_legal_move : σ → Bool
  pseudo_legal_rest : σ → Move → Bool
  is_into_check : σ → Move → Bool
  is_insufficient_material : σ → Bool
  is_seventyfive_moves : σ → Bool
  is_fivefold_repetition : σ → Bool
  can_claim_fifty_moves : σ → Bool
  can_claim_threefold_repetition : σ → Bool

variable {σ : Type}

/-- Embedding of `chess.Board.is_pseudo_legal`: a null move (falsy `Move`) is rejected
first, the rest of the method is the opaque `pseudo_legal_rest`. -/
def Engine.is_pseudo_legal (e : Engine σ) (s : σ) (m : Move) : Bool :=
  m.toBool && e.pseudo_legal_rest s m

/-- Embedding of `chess.Board.is_legal`, the membership test behind
`move in board.legal_moves` at `game.py` line 125:
`not is_variant_end() and is_pseudo_legal(move) and not is_into_check(move)`. -/
def Engine.is_legal (e : Engine σ) (s : σ) (m : Move) : Bool :=
  !e.is_variant_end s && e.is_pseudo_legal s m && !e.is_into_check s m

/-- Embedding of `chess.Board.is_checkmate`: in check with no legal reply. -/
def Engine.is_checkmate (e : Engine σ) (s : σ) : Bool :=
  e.is_check s && !e.has_legal_move s

/-- Embedding of `chess.Board.is_stalemate`: not in check, not a variant end, no legal
move. -/
def Engine.is_stalemate (e : Engine σ) (s : σ) : Bool :=
  !e.is_check s && !e.is_variant_end s && !e.has_legal_move s

/-- Embedding of the `chess.Termination` members reachable through `Board.outcome`. -/
inductive Termination
  | variant_loss | variant_win | variant_draw
  | checkmate | insufficient_material | stalemate
  | seventyfive_moves | fivefold_repetition
  | fifty_moves | threefold_repetition
deriving DecidableEq, Repr

/-- Embedding of `chess.Outcome`: a termination kind and the winning color, if any. -/
structure GameOutcome where
  termination : Termination
  winner : Option Bool
deriving DecidableEq, Repr

/-- Embedding of `chess.Outcome.result()`. -/
def GameOutcome.result_str (o : GameOutcome) : String :=
  match o.winner with
  | none => "1/2-1/2"
  | some w => if w then "1-0" else "0-1"

/-- Embedding of `chess.Board.outcome(claim_draw=...)`, the cascade of
terminal checks in source order. -/
def Engine.outcome (e : Engine σ) (s : σ) (claim_draw : Bool) :
    Option GameOutcome :=
  if e.is_variant_loss s then some ⟨.variant_loss, some (!e.turn s)⟩
  else if e.is_variant_win s then some ⟨.variant_win, some (e.turn s)⟩
  else if e.is_variant_draw s then some ⟨.variant_draw, none⟩
  else if e.is_checkmate s then some ⟨.checkmate, some (!e.turn s)⟩
  else if e.is_insufficient_material s then some ⟨.insufficient_material, none⟩
  else if !e.has_legal_move s then some ⟨.stalemate, none⟩
  else if e.is_seventyfive_moves s then some ⟨.seventyfive_moves, none⟩
  else if e.is_fivefold_repetition s then some ⟨.fivefold_repetition, none⟩
  else if claim_draw && e.can_claim_fifty_moves s then
    some ⟨.fifty_moves, none⟩
  else if claim_draw && e.can_claim_threefold_repetition s then
    some ⟨.threefold_repetition, none⟩
  else none

/-- Embedding of `chess.Board.is_game_over(claim_draw=...)`: whether `outcome` reports a
termination. -/
def Engine.is_game_over (e : Engine σ) (s : σ) (claim_draw : Bool) : Bool :=
  (e.outcome s claim_draw).isSome

/-- Embedding of `chess.Board.result(claim_draw=...)`: the score string, `"*"` when the
game is not over. -/
def Engine.result (e : Engine σ) (s : σ) (claim_draw : Bool) : String :=
  match e.outcome s claim_draw with
  | some o => o.result_str
  | none => "*"

/-! ## The arbitration loop (`main`, `game.py` lines 94–157) -/

/-- The spec's `TurnOutcome`: what one turn of the loop did. -/
inductive TurnOutcome
  | Applied (m : Move)
  | IllegalMove (raw : String)
  | MalformedProposal (raw : String)
deriving DecidableEq, Repr

def TurnOutcome.isApplied : TurnOutcome → Bool
  | .Applied _ => true
  | _ => false

def TurnOutcome.isMalformed : TurnOutcome → Bool
  | .MalformedProposal _ => true
  | _ => false

/-- The adjudication of one proposal (`game.py` lines 120–136): parse the
extracted text with `Move.from_uci`; a raised `ValueError` (`none`) is the
`except` branch, a parsed move is applied only if `move in board.legal_moves`. -/
def turn_outcome (e : Engine σ) (s : σ) (r : LLMResult) : TurnOutcome :=
  match Move.from_uci (get_llm_move r) with
  | some m =>
    if e.is_legal s m then .Applied m else .IllegalMove (get_llm_move r)
  | none => .MalformedProposal (get_llm_move r)

/-- Embedding of `current_model_name = user_model_name if is_white_turn else
bot_model_name` (`game.py` line 114). -/
def current_model_name (user bot : String) (is_white_turn : Bool) : String :=
  if is_white_turn then user else bot

/-- Embedding of `turn_color = "White" if is_white_turn else "Black"` (line 116). -/
def turn_color (is_white_turn : Bool) : String :=
  if is_white_turn then "White" else "Black"

/-- What the game loop left behind when it stopped: the final board, the
`(pre-state, move)` pair of every `board.push`, the `(turn index, state)` of
every Proposal Source invocation, and — when the loop ended by `break` — the
forfeiting Seat (as `board.turn`), the declared winner's model name, and
whether the `break` was the invalid-format one (`true`) or the illegal-move
one (`false`). -/
structure LoopExit (σ : Type) where
  final : σ
  applied : List (σ × Move)
  calls : List (Nat × σ)
  forfeit : Option (Bool × String × Bool)
deriving DecidableEq, Repr

/-- The `while not board.is_game_over(claim_draw=True)` loop of `main`
(`game.py` lines 108–136), run with explicit fuel (`none` = fuel exhausted
with the game still in progress). `src i` is the Proposal Source response on
the `i`-th loop iteration. -/
def game_loop (e : Engine σ) (user_model_name bot_model_name : String)
    (src : Nat → LLMResult) : Nat → σ → Nat → Option (LoopExit σ)
  | 0, _, _ => none
  | fuel + 1, s, i =>
    if e.is_game_over s true then some ⟨s, [], [], none⟩
    else
      match turn_outcome e s (src i) with
      | .Applied m =>
        (game_loop e user_model_name bot_model_name src fuel (e.push s m)
            (i + 1)).map
          (fun ex => ⟨ex.final, (s, m) :: ex.applied, (i, s) :: ex.calls,
            ex.forfeit⟩)
      | .IllegalMove _ =>
        some ⟨s, [], [(i, s)],
          some (e.turn s,
            if e.turn s then bot_model_name else user_model_name, false)⟩
      | .MalformedProposal _ =>
        some ⟨s, [], [(i, s)],
          some (e.turn s,
            if e.turn s then bot_model_name else user_model_name, true)⟩

/-- The checkmate branch of the result display (`game.py` lines 144–147):
`winner_color = "Black" if board.turn == chess.WHITE else "White"`,
`winner_model = bot_model_name if winner_color == "Black" else
user_model_name`. -/
def report_checkmate (e : Engine σ) (s : σ) (user_model_name bot_model_name : String) :
    Option (String × String) :=
  if e.is_checkmate s then
    let winner_color := if e.turn s then "Black" else "White"
    let winner_model := if winner_color = "Black" then bot_model_name
      else user_model_name
    some (winner_color, winner_model)
  else none

/-- Embedding of `get_player_choice` (`game.py` lines 79–91) for one console
input; `none` models the re-prompt of the `while True` loop on invalid input. -/
def get_player_choice (input_line : String) : Option (String × String) :=
  if (⟨strip_chars input_line.data⟩ : String) = "1" then
    some ("LLaMA3", "Gemma")
  else if (⟨strip_chars input_line.data⟩ : String) = "2" then
    some ("Gemma", "LLaMA3")
  else none

/-! ## Concrete oracle instances and proposal streams used by witnesses -/

/-- A non-terminal oracle over `Nat` states: always White to move, every
parsed non-null move is legal, pushing a move counts plies. -/
def engA : Engine Nat where
  turn := fun _ => true
  push := fun s _ => s + 1
  is_variant_end := fun _ => false
  is_variant_loss := fun _ => false
  is_variant_win := fun _ => false
  is_variant_draw := fun _ => false
  is_check := fun _ => false
  has_legal_move := fun _ => true
  pseudo_legal_rest := fun _ _ => true
  is_into_check := fun _ _ => false
  is_insufficient_material := fun _ => false
  is_seventyfive_moves := fun _ => false
  is_fivefold_repetition := fun _ => false
  can_claim_fifty_moves := fun _ => false
  can_claim_threefold_repetition := fun _ => false

/-- An oracle whose every state is checkmate (in check, no legal reply). -/
def engB : Engine Nat :=
  { engA with is_check := fun _ => true, has_legal_move := fun _ => false }

/-- A Proposal Source that always throws. -/
def srcErr : Nat → LLMResult := fun _ => .err "boom"

/-- A Proposal Source that always answers unparsable text. -/
def srcGarbage : Nat → LLMResult := fun _ => .ok [['z', 'z']]

/-- A Proposal Source that always answers the null move `0000`. -/
def srcNull : Nat → LLMResult := fun _ => .ok [['0', '0', '0', '0']]

/-- A Proposal Source that answers `e2e4`, then `0000` forever. -/
def srcPlay : Nat → LLMResult := fun i =>
  if i = 0 then .ok [['e', '2', 'e', '4']] else .ok [['0', '0', '0', '0']]

/-! ## Helper lemmas about the loop -/

/-- A turn whose outcome is `Applied m` passed the legality test on `m`. -/
theorem turn_outcome_applied_legal (e : Engine σ) (s : σ) (r : LLMResult)
    (m : Move) (h : turn_outcome e s r = .Applied m) :
    e.is_legal s m = true := by
  unfold turn_outcome at h
  cases hp : Move.from_uci (get_llm_move r) with
  | none => rw [hp] at h; simp at h
  | some m₁ =>
    rw [hp] at h
    by_cases hl : e.is_legal s m₁ = true
    · simp [hl] at h
      subst h
      exact hl
    · simp [hl] at h

/-- When `Board.outcome(claim_draw=True)` is `None`, every terminal condition
it checks is false (and in particular a legal move exists). -/
theorem outcome_none_conds (e : Engine σ) (s : σ)
    (h : e.outcome s true = none) :
    e.is_variant_loss s = false ∧ e.is_variant_win s = false ∧
    e.is_variant_draw s = false ∧ e.is_checkmate s = false ∧
    e.is_insufficient_material s = false ∧ e.has_legal_move s = true ∧
    e.is_seventyfive_moves s = false ∧ e.is_fivefold_repetition s = false := by
  have h1 : e.is_variant_loss s = false := by
    by_contra hc; rw [Bool.not_eq_false] at hc
    simp [Engine.outcome, hc] at h
  have h2 : e.is_variant_win s = false := by
    by_contra hc; rw [Bool.not_eq_false] at hc
    simp [Engine.outcome, h1, hc] at h
  have h3 : e.is_variant_draw s = false := by
    by_contra hc; rw [Bool.not_eq_false] at hc
    simp [Engine.outcome, h1, h2, hc] at h
  have h4 : e.is_checkmate s = false := by
    by_contra hc; rw [Bool.not_eq_false] at hc
    simp [Engine.outcome, h1, h2, h3, hc] at h
  have h5 : e.is_insufficient_material s = false := by
    by_contra hc; rw [Bool.not_eq_false] at hc
    simp [Engine.outcome, h1, h2, h3, h4, hc] at h
  have h6 : e.has_legal_move s = true := by
    by_contra hc; rw [Bool.not_eq_true] at hc
    simp [Engine.outcome, h1, h2, h3, h4, h5, hc] at h
  have h7 : e.is_seventyfive_moves s = false := by
    by_contra hc; rw [Bool.not_eq_false] at hc
    simp [Engine.outcome, h1, h2, h3, h4, h5, h6, hc] at h
  have h8 : e.is_fivefold_repetition s = false := by
    by_contra hc; rw [Bool.not_eq_false] at hc
    simp [Engine.outcome, h1, h2, h3, h4, h5, h6, h7, hc] at h
  exact ⟨h1, h2, h3, h4, h5, h6, h7, h8⟩

theorem game_loop_zero (e : Engine σ) (user bot : String)
    (src : Nat → LLMResult) (s : σ) (i : Nat) :
    game_loop e user bot src 0 s i = none := rfl

theorem game_loop_succ (e : Engine σ) (user bot : String)
    (src : Nat → LLMResult) (fuel : Nat) (s : σ) (i : Nat) :
    game_loop e user bot src (fuel + 1) s i =
      if e.is_game_over s true then some ⟨s, [], [], none⟩
      else
        match turn_outcome e s (src i) with
        | .Applied m =>
          (game_loop e user bot src fuel (e.push s m) (i + 1)).map
            (fun ex => ⟨ex.final, (s, m) :: ex.applied, (i, s) :: ex.calls,
              ex.forfeit⟩)
        | .IllegalMove _ =>
          some ⟨s, [], [(i, s)], some (e.turn s,
            if e.turn s then bot else user, false)⟩
        | .MalformedProposal _ =>
          some ⟨s, [], [(i, s)], some (e.turn s,
            if e.turn s then bot else user, true)⟩ := rfl

/-! ## Claim theorems -/

/-- C1: on any turn whose outcome is not `Applied` (unparsable proposal or
illegal parsed move), the loop ends at once — the final state is the state
the turn began in, no move is pushed, no further Proposal Source call is
made — the Seat that acted (`board.turn`) is the forfeiting loser, and the
model bound to the other Seat is declared winner. -/
theorem C1_nonapplied_outcome_ends_game (e : Engine σ) (user bot : String)
    (src : Nat → LLMResult) (fuel : Nat) (s : σ) (i : Nat)
    (hover : e.is_game_over s true = false)
    (hout : (turn_outcome e s (src i)).isApplied = false) :
    game_loop e user bot src (fuel + 1) s i =
      some ⟨s, [], [(i, s)],
        some (e.turn s, if e.turn s then bot else user,
          (turn_outcome e s (src i)).isMalformed)⟩ := by
  cases h : turn_outcome e s (src i) with
  | Applied m => rw [h] at hout; simp [TurnOutcome.isApplied] at hout
  | IllegalMove raw =>
    rw [game_loop_succ, if_neg (show ¬(e.is_game_over s true = true) by simp [hover]), h]
    simp [TurnOutcome.isMalformed]
  | MalformedProposal raw =>
    rw [game_loop_succ, if_neg (show ¬(e.is_game_over s true = true) by simp [hover]), h]
    simp [TurnOutcome.isMalformed]

theorem C1_witness :
    game_loop engA "LLaMA3" "Gemma" srcErr 1 0 0 =
      some ⟨0, [], [(0, 0)], some (true, "Gemma", true)⟩ :=
  C1_nonapplied_outcome_ends_game engA "LLaMA3" "Gemma" srcErr 0 0 0
    (by decide) (by decide)

/-- C2: every `board.push` the loop performs is on a move that passed the
`move in board.legal_moves` test against the exact state being pushed. -/
theorem C2_push_only_after_legality (e : Engine σ) (user bot : String)
    (src : Nat → LLMResult) :
    ∀ (fuel : Nat) (s : σ) (i : Nat) (ex : LoopExit σ),
      game_loop e user bot src fuel s i = some ex →
      ∀ p ∈ ex.applied, e.is_legal p.1 p.2 = true := by
  intro fuel
  induction fuel with
  | zero =>
    intro s i ex h p hp
    rw [game_loop_zero] at h
    exact absurd h (by simp)
  | succ n ih =>
    intro s i ex h p hp
    rw [game_loop_succ] at h
    by_cases hover : e.is_game_over s true = true
    · rw [if_pos hover] at h
      injection h with h
      subst h
      simp at hp
    · rw [if_neg hover] at h
      cases houtc : turn_outcome e s (src i) with
      | Applied m =>
        rw [houtc] at h
        simp only at h
        rcases Option.map_eq_some'.mp h with ⟨a, ha, hfa⟩
        rw [← hfa] at hp
        simp only at hp
        rcases List.mem_cons.mp hp with hm | hm
        · subst hm
          exact turn_outcome_applied_legal e s (src i) m houtc
        · exact ih (e.push s m) (i + 1) a ha p hm
      | IllegalMove raw =>
        rw [houtc] at h
        simp only at h
        injection h with h
        subst h
        simp at hp
      | MalformedProposal raw =>
        rw [houtc] at h
        simp only at h
        injection h with h
        subst h
        simp at hp

theorem C2_witness : engA.is_legal 0 ⟨12, 28, none, none⟩ = true :=
  C2_push_only_after_legality engA "LLaMA3" "Gemma" srcPlay 2 0 0
    ⟨1, [(0, ⟨12, 28, none, none⟩)], [(0, 0), (1, 1)], some (true, "Gemma", false)⟩
    (by decide) (0, ⟨12, 28, none, none⟩) (by simp)

/-- C3: a turn that begins in a state the Rules Oracle reports terminal is
resolved at once with no Proposal Source invocation, and more generally every
Proposal Source invocation the loop ever makes happens in a state that is not
terminal. -/
theorem C3_no_proposal_on_terminal_state {σ : Type} :
    (∀ (e : Engine σ) (user bot : String) (src : Nat → LLMResult)
       (fuel : Nat) (s : σ) (i : Nat),
       e.is_game_over s true = true →
       game_loop e user bot src (fuel + 1) s i = some ⟨s, [], [], none⟩) ∧
    (∀ (e : Engine σ) (user bot : String) (src : Nat → LLMResult)
       (fuel : Nat) (s : σ) (i : Nat) (ex : LoopExit σ),
       game_loop e user bot src fuel s i = some ex →
       ∀ c ∈ ex.calls, e.is_game_over c.2 true = false) := by
  constructor
  · intro e user bot src fuel s i hover
    rw [game_loop_succ, if_pos hover]
  · intro e user bot src fuel
    induction fuel with
    | zero =>
      intro s i ex h c hc
      rw [game_loop_zero] at h
      exact absurd h (by simp)
    | succ n ih =>
      intro s i ex h c hc
      rw [game_loop_succ] at h
      by_cases hover : e.is_game_over s true = true
      · rw [if_pos hover] at h
        injection h with h
        subst h
        simp at hc
      · rw [if_neg hover] at h
        cases houtc : turn_outcome e s (src i) with
        | Applied m =>
          rw [houtc] at h
          simp only at h
          rcases Option.map_eq_some'.mp h with ⟨a, ha, hfa⟩
          rw [← hfa] at hc
          simp only at hc
          rcases List.mem_cons.mp hc with hm | hm
          · subst hm
            simpa using hover
          · exact ih (e.push s m) (i + 1) a ha c hm
        | IllegalMove raw =>
          rw [houtc] at h
          simp only at h
          injection h with h
          subst h
          rcases List.mem_cons.mp hc with hm | hm
          · subst hm
            simpa using hover
          · simp at hm
        | MalformedProposal raw =>
          rw [houtc] at h
          simp only at h
          injection h with h
          subst h
          rcases List.mem_cons.mp hc with hm | hm
          · subst hm
            simpa using hover
          · simp at hm

theorem C3_witness :
    game_loop engB "LLaMA3" "Gemma" srcErr 1 0 0 = some ⟨0, [], [], none⟩ ∧
    engA.is_game_over 1 true = false :=
  ⟨(C3_no_proposal_on_terminal_state (σ := Nat)).1 engB "LLaMA3" "Gemma"
      srcErr 0 0 0 (by decide),
   (C3_no_proposal_on_terminal_state (σ := Nat)).2 engA "LLaMA3" "Gemma"
      srcPlay 2 0 0
      ⟨1, [(0, ⟨12, 28, none, none⟩)], [(0, 0), (1, 1)],
        some (true, "Gemma", false)⟩
      (by decide) (1, 1) (by simp)⟩

/-- C5: when the final state is a checkmate, the color the result display
declares winner is the color NOT to move there (`board.turn` inverted), the
declared winning model is the one seated at that color, and the side to move
is indeed mated — in check with no legal reply. -/
theorem C5_checkmate_winner_is_side_not_to_move (e : Engine σ) (s : σ)
    (user bot : String) (h : e.is_checkmate s = true) :
    report_checkmate e s user bot =
      some (turn_color (!e.turn s), if e.turn s then bot else user) ∧
    e.is_check s = true ∧ e.has_legal_move s = false := by
  refine ⟨?_, ?_, ?_⟩
  · unfold report_checkmate turn_color
    rw [if_pos h]
    cases ht : e.turn s <;> simp [ht]
  · unfold Engine.is_checkmate at h
    rw [Bool.and_eq_true] at h
    exact h.1
  · unfold Engine.is_checkmate at h
    rw [Bool.and_eq_true] at h
    simpa using h.2

theorem C5_witness :
    report_checkmate engB 0 "LLaMA3" "Gemma" = some ("Black", "Gemma") ∧
    engB.is_check 0 = true ∧ engB.has_legal_move 0 = false :=
  C5_checkmate_winner_is_side_not_to_move engB 0 "LLaMA3" "Gemma" (by decide)

/-- C4: a Proposal Source call that throws is handled exactly like a
malformed proposal: `get_llm_move` recovers it to the unparsable text
`"error"`, parsing that text fails, the loop takes the invalid-format
forfeiture branch, and the whole run is equal to one in which the source had
instead returned unparsable text — the failure is a value, never an
unhandled exception. -/
theorem C4_source_failure_equals_malformed (e : Engine σ) (user bot : String)
    (src srcOk : Nat → LLMResult) (fuel : Nat) (s : σ) (i : Nat)
    (msg : String) (tokens : List (List Char))
    (hsrc : src i = .err msg) (hsrcOk : srcOk i = .ok tokens)
    (htk : Move.from_uci (get_llm_move (.ok tokens)) = none)
    (hover : e.is_game_over s true = false) :
    get_llm_move (.err msg) = "error" ∧ Move.from_uci "error" = none ∧
    game_loop e user bot src (fuel + 1) s i =
      some ⟨s, [], [(i, s)],
        some (e.turn s, if e.turn s then bot else user, true)⟩ ∧
    game_loop e user bot src (fuel + 1) s i =
      game_loop e user bot srcOk (fuel + 1) s i := by
  have herr : Move.from_uci "error" = none := by decide
  have hout : turn_outcome e s (src i) = .MalformedProposal "error" := by
    rw [hsrc]
    unfold turn_outcome
    simp only [get_llm_move, herr]
  have houtOk : turn_outcome e s (srcOk i) =
      .MalformedProposal (get_llm_move (.ok tokens)) := by
    rw [hsrcOk]
    unfold turn_outcome
    rw [htk]
  refine ⟨rfl, herr, ?_, ?_⟩
  · rw [game_loop_succ, if_neg (show ¬(e.is_game_over s true = true) by simp [hover]), hout]
  · rw [game_loop_succ, if_neg (show ¬(e.is_game_over s true = true) by simp [hover]), hout,
      game_loop_succ, if_neg (show ¬(e.is_game_over s true = true) by simp [hover]), houtOk]

theorem C4_witness :
    get_llm_move (.err "boom") = "error" ∧ Move.from_uci "error" = none ∧
    game_loop engA "LLaMA3" "Gemma" srcErr 1 0 0 =
      some ⟨0, [], [(0, 0)], some (true, "Gemma", true)⟩ ∧
    game_loop engA "LLaMA3" "Gemma" srcErr 1 0 0 =
      game_loop engA "LLaMA3" "Gemma" srcGarbage 1 0 0 :=
  C4_source_failure_equals_malformed engA "LLaMA3" "Gemma" srcErr srcGarbage
    0 0 0 "boom" [['z', 'z']] rfl rfl (by decide) (by decide)

/-- C8: the token `0000` parses (to the UCI null move) rather than raising,
the null move fails `Board.is_legal` in every state whatsoever (its leading
null-move rejection in `is_pseudo_legal`), and a turn proposing `0000` is
therefore adjudicated through the illegal-move branch (`false` flag), never
the invalid-format branch. -/
theorem C8_null_move_parses_but_never_legal :
    Move.from_uci "0000" = some Move.null ∧
    (∀ (σ : Type) (e : Engine σ) (s : σ), e.is_legal s Move.null = false) ∧
    (∀ (σ : Type) (e : Engine σ) (user bot : String) (src : Nat → LLMResult)
       (fuel : Nat) (s : σ) (i : Nat),
       e.is_game_over s true = false → get_llm_move (src i) = "0000" →
       game_loop e user bot src (fuel + 1) s i =
         some ⟨s, [], [(i, s)],
           some (e.turn s, if e.turn s then bot else user, false)⟩) := by
  have hparse : Move.from_uci "0000" = some Move.null := by decide
  have hleg : ∀ (σ : Type) (e : Engine σ) (s : σ),
      e.is_legal s Move.null = false := by
    intro σ e s
    unfold Engine.is_legal Engine.is_pseudo_legal
    simp [Move.toBool, Move.null, optNatTruthy]
  refine ⟨hparse, hleg, ?_⟩
  intro σ e user bot src fuel s i hover hmv
  have hout : turn_outcome e s (src i) = .IllegalMove "0000" := by
    unfold turn_outcome
    rw [hmv, hparse]
    simp [hleg]
  rw [game_loop_succ, if_neg (show ¬(e.is_game_over s true = true) by simp [hover]), hout]

theorem C8_witness :
    game_loop engA "LLaMA3" "Gemma" srcNull 1 0 0 =
      some ⟨0, [], [(0, 0)], some (true, "Gemma", false)⟩ :=
  C8_null_move_parses_but_never_legal.2.2 Nat engA "LLaMA3" "Gemma" srcNull
    0 0 0 (by decide) (by decide)

/-- If the loop condition `board.is_game_over(claim_draw=True)` is false at a
state, every terminal predicate the result display tests is false there and
`board.result(claim_draw=True)` is the undetermined score `"*"`. -/
theorem not_game_over_bundle (e : Engine σ) (s : σ)
    (hover : e.is_game_over s true = false) :
    e.is_game_over s true = false ∧
    e.is_checkmate s = false ∧ e.is_stalemate s = false ∧
    e.is_insufficient_material s = false ∧
    e.is_seventyfive_moves s = false ∧
    e.is_fivefold_repetition s = false ∧
    e.is_variant_draw s = false ∧
    e.result s true = "*" := by
  have hnone : e.outcome s true = none := by
    cases ho : e.outcome s true with
    | none => rfl
    | some o =>
      unfold Engine.is_game_over at hover
      rw [ho] at hover
      simp at hover
  obtain ⟨h1, h2, h3, h4, h5, h6, h7, h8⟩ := outcome_none_conds e s hnone
  refine ⟨hover, h4, ?_, h5, h7, h8, h3, ?_⟩
  · unfold Engine.is_stalemate
    simp [h6]
  · unfold Engine.result
    rw [hnone]

/-- C10: a game that the loop ends by forfeiture (non-`Applied` outcome)
leaves a final board that satisfies none of the terminal predicates —
checkmate, stalemate, insufficient material, the 75-move rule, fivefold
repetition, variant draw — and whose `board.result(claim_draw=True)` is the
undetermined marker `"*"`. -/
theorem C10_forfeit_final_state_not_terminal (e : Engine σ)
    (user bot : String) (src : Nat → LLMResult) :
    ∀ (fuel : Nat) (s : σ) (i : Nat) (ex : LoopExit σ)
      (w : Bool × String × Bool),
      game_loop e user bot src fuel s i = some ex → ex.forfeit = some w →
      e.is_game_over ex.final true = false ∧
      e.is_checkmate ex.final = false ∧ e.is_stalemate ex.final = false ∧
      e.is_insufficient_material ex.final = false ∧
      e.is_seventyfive_moves ex.final = false ∧
      e.is_fivefold_repetition ex.final = false ∧
      e.is_variant_draw ex.final = false ∧
      e.result ex.final true = "*" := by
  intro fuel
  induction fuel with
  | zero =>
    intro s i ex w h hw
    rw [game_loop_zero] at h
    exact absurd h (by simp)
  | succ n ih =>
    intro s i ex w h hw
    rw [game_loop_succ] at h
    by_cases hover : e.is_game_over s true = true
    · rw [if_pos hover] at h
      injection h with h
      subst h
      simp at hw
    · rw [if_neg hover] at h
      rw [Bool.not_eq_true] at hover
      cases houtc : turn_outcome e s (src i) with
      | Applied m =>
        rw [houtc] at h
        simp only at h
        rcases Option.map_eq_some'.mp h with ⟨a, ha, hfa⟩
        have hfin : ex.final = a.final := by rw [← hfa]
        have hforf : a.forfeit = some w := by rw [← hfa] at hw; exact hw
        rw [hfin]
        exact ih (e.push s m) (i + 1) a w ha hforf
      | IllegalMove raw =>
        rw [houtc] at h
        simp only at h
        injection h with h
        subst h
        exact not_game_over_bundle e s hover
      | MalformedProposal raw =>
        rw [houtc] at h
        simp only at h
        injection h with h
        subst h
        exact not_game_over_bundle e s hover

theorem C10_witness :
    engA.is_game_over 0 true = false ∧
    engA.is_checkmate 0 = false ∧ engA.is_stalemate 0 = false ∧
    engA.is_insufficient_material 0 = false ∧
    engA.is_seventyfive_moves 0 = false ∧
    engA.is_fivefold_repetition 0 = false ∧
    engA.is_variant_draw 0 = false ∧
    engA.result 0 true = "*" :=
  C10_forfeit_final_state_not_terminal engA "LLaMA3" "Gemma" srcErr 1 0 0
    ⟨0, [], [(0, 0)], some (true, "Gemma", true)⟩ (true, "Gemma", true)
    (by decide) rfl

/-- C9: a valid operator selection yields exactly one of the two ordered
pairs `("LLaMA3", "Gemma")` / `("Gemma", "LLaMA3")` — two distinct model
names with the chosen one first — and the loop's seat resolution binds the
first component to the White (first-mover) turn and the second to Black. -/
theorem C9_choice_binds_first_component_to_white :
    (∀ (input_line : String) (p : String × String),
       get_player_choice input_line = some p →
       (p = ("LLaMA3", "Gemma") ∨ p = ("Gemma", "LLaMA3")) ∧
       ¬p.1 = p.2 ∧
       current_model_name p.1 p.2 true = p.1 ∧
       current_model_name p.1 p.2 false = p.2) ∧
    get_player_choice "1" = some ("LLaMA3", "Gemma") ∧
    get_player_choice "2" = some ("Gemma", "LLaMA3") := by
  refine ⟨?_, by decide, by decide⟩
  intro input_line p h
  unfold get_player_choice at h
  split_ifs at h with h1 h2
  · injection h with h
    subst h
    refine ⟨Or.inl rfl, by decide, rfl, rfl⟩
  · injection h with h
    subst h
    refine ⟨Or.inr rfl, by decide, rfl, rfl⟩

theorem pyIndex_isSome_iff {α : Type} [DecidableEq α] :
    ∀ (l : List α) (x : α), (pyIndex l x).isSome = true ↔ x ∈ l := by
  intro l
  induction l with
  | nil => intro x; simp [pyIndex]
  | cons y ys ih =>
    intro x
    by_cases h : y = x
    · subst h
      simp [pyIndex]
    · unfold pyIndex
      rw [if_neg h]
      rcases ho : pyIndex ys x with _ | j
      · simp only [Option.map_none', Option.isSome_none, List.mem_cons]
        constructor
        · intro hf
          simp at hf
        · rintro (rfl | hmem)
          · exact absurd rfl h
          · have hx := (ih x).mpr hmem
            rw [ho] at hx
            simp at hx
      · simp only [Option.map_some', Option.isSome_some, List.mem_cons]
        constructor
        · intro _
          exact Or.inr ((ih x).mp (by rw [ho]; rfl))
        · intro _
          trivial

theorem pyIndex_get {α : Type} [DecidableEq α] :
    ∀ (l : List α) (x : α) (i : Nat), pyIndex l x = some i →
      l.get? i = some x := by
  intro l
  induction l with
  | nil => intro x i h; simp [pyIndex] at h
  | cons y ys ih =>
    intro x i h
    by_cases hyx : y = x
    · subst hyx
      simp [pyIndex] at h
      subst h
      rfl
    · simp only [pyIndex, if_neg hyx] at h
      rcases Option.map_eq_some'.mp h with ⟨j, hj, hji⟩
      subst hji
      rw [List.get?_cons_succ]
      exact ih x j hj

theorem pyIndex_inj {α : Type} [DecidableEq α] (l : List α) (x y : α)
    (i : Nat) (hx : pyIndex l x = some i) (hy : pyIndex l y = some i) :
    x = y := by
  have h1 := pyIndex_get l x i hx
  have h2 := pyIndex_get l y i hy
  rw [h1] at h2
  exact Option.some.inj h2

theorem mem_square_names (f r : Char) :
    [f, r] ∈ SQUARE_NAMES ↔ f ∈ FILE_NAMES ∧ r ∈ RANK_NAMES := by
  unfold SQUARE_NAMES
  constructor
  · intro hm
    rcases List.mem_flatMap.mp hm with ⟨r₁, hr, hmap⟩
    rcases List.mem_map.mp hmap with ⟨f₁, hf, heq⟩
    have hf₂ : f₁ = f := by injection heq
    have hr₂ : r₁ = r := by
      injection heq with _ h
      injection h
    subst hf₂
    subst hr₂
    exact ⟨hf, hr⟩
  · rintro ⟨hf, hr⟩
    exact List.mem_flatMap.mpr ⟨r, hr, List.mem_map.mpr ⟨f, hf, rfl⟩⟩

theorem isFileChar_mem (c : Char) : isFileChar c = true ↔ c ∈ FILE_NAMES := by
  unfold isFileChar
  rw [show "abcdefgh".data = FILE_NAMES from rfl]
  exact List.elem_iff

theorem isRankChar_mem (c : Char) : isRankChar c = true ↔ c ∈ RANK_NAMES := by
  unfold isRankChar
  rw [show "12345678".data = RANK_NAMES from rfl]
  exact List.elem_iff

/-- The lookup in `SQUARE_NAMES` succeeds exactly on a lowercase file letter
followed by a rank digit. -/
theorem square_isSome (f r : Char) :
    (square_index [f, r]).isSome = (isFileChar f && isRankChar r) := by
  rw [Bool.eq_iff_iff, Bool.and_eq_true]
  unfold square_index
  rw [pyIndex_isSome_iff, mem_square_names, isFileChar_mem, isRankChar_mem]

/-- The lookup in `PIECE_SYMBOLS` succeeds exactly on a lowercase piece
letter. -/
theorem piece_isSome (c : Char) : (piece_index c).isSome = isPromoChar c := by
  rw [Bool.eq_iff_iff]
  unfold piece_index
  rw [pyIndex_isSome_iff]
  unfold isPromoChar
  rw [List.elem_iff]
  simp [PIECE_SYMBOLS, show "pnbrqk".data = ['p', 'n', 'b', 'r', 'q', 'k']
    from rfl]

theorem parse_drop_isSome (p f r : Char) :
    (parse_drop p [f, r]).isSome =
      (isPromoChar p.toLower && (isFileChar f && isRankChar r)) := by
  rw [← piece_isSome, ← square_isSome]
  unfold parse_drop
  rcases hp : piece_index p.toLower with _ | d <;>
    rcases hs : square_index [f, r] with _ | s <;> simp [hp, hs]

theorem parse_squares_isSome (v w x y : Char) (promo : Option (Option Nat)) :
    (parse_squares [v, w] [x, y] promo).isSome =
      ((isFileChar v && isRankChar w) &&
        ((isFileChar x && isRankChar y) &&
          (promo.isSome && !(v == x && w == y)))) := by
  rw [← square_isSome v w, ← square_isSome x y]
  unfold parse_squares
  rcases h1 : square_index [v, w] with _ | i <;>
    rcases h2 : square_index [x, y] with _ | j <;>
    rcases hp : promo with _ | pr
  · simp [h1, h2, hp]
  · simp [h1, h2, hp]
  · simp [h1, h2, hp]
  · simp [h1, h2, hp]
  · simp [h1, h2, hp]
  · simp [h1, h2, hp]
  · simp [h1, h2, hp]
  · by_cases hij : i = j
    · subst hij
      have hsq : ([v, w] : List Char) = [x, y] :=
        pyIndex_inj SQUARE_NAMES _ _ _ h1 h2
      have hv : v = x := by injection hsq
      have hw : w = y := by
        injection hsq with _ h
        injection h
      subst hv
      subst hw
      simp [h1, h2]
    · have hne : ¬(v = x ∧ w = y) := by
        rintro ⟨rfl, rfl⟩
        rw [h1] at h2
        exact hij (Option.some.inj h2)
      have hb : (v == x && w == y) = false := by
        by_contra hbb
        rw [Bool.not_eq_false, Bool.and_eq_true, beq_iff_eq, beq_iff_eq]
          at hbb
        exact hne hbb
      simp [h1, h2, hij, hb]

theorem takeWhile_congr_mem {α : Type} (p q : α → Bool) :
    ∀ l : List α, (∀ c ∈ l, p c = q c) → l.takeWhile p = l.takeWhile q := by
  intro l
  induction l with
  | nil => intro _; rfl
  | cons a l ih =>
    intro h
    have ha := h a (List.mem_cons_self a l)
    rw [List.takeWhile_cons, List.takeWhile_cons, ha]
    cases q a with
    | false => rfl
    | true =>
      simp only [if_true]
      rw [ih (fun c hc => h c (List.mem_cons_of_mem a hc))]

theorem dropWhile_eq_self_of_all {α : Type} (f : α → Bool) (l : List α)
    (h : ∀ c ∈ l, f c = false) : l.dropWhile f = l := by
  cases l with
  | nil => rfl
  | cons a l =>
    rw [List.dropWhile_cons, h a (List.mem_cons_self a l)]
    simp

theorem strip_chars_eq_self (l : List Char)
    (h : ∀ c ∈ l, c.isWhitespace = false) : strip_chars l = l := by
  unfold strip_chars
  rw [dropWhile_eq_self_of_all _ l h,
    dropWhile_eq_self_of_all _ l.reverse
      (fun c hc => h c (List.mem_reverse.mp hc)),
    List.reverse_reverse]

/-- C7 (corrected): the candidate move text is the 10-model-token-capped
completion truncated at the first space or line break and stripped of
surrounding whitespace. When the capped completion starts with a
non-whitespace character and contains no whitespace other than spaces and
line breaks, this coincides with the spec's "first whitespace-delimited
token up to the first line break"; the output-length cap is 10 model tokens
(`tokens.take 10`), not 10 characters. -/
theorem C7_candidate_extraction (tokens : List (List Char))
    (hws : ∀ c ∈ (tokens.take 10).flatten,
      c.isWhitespace = true → c = ' ' ∨ c = '\n')
    (hhead : ∀ c, ((tokens.take 10).flatten).head? = some c →
      c.isWhitespace = false) :
    get_llm_move (.ok tokens) = ⟨first_ws_token ((tokens.take 10).flatten)⟩ ∧
    get_llm_move (.ok tokens) = get_llm_move (.ok (tokens.take 10)) := by
  constructor
  · show (⟨strip_chars (llama_text tokens)⟩ : String) = _
    unfold llama_text first_ws_token
    have hA : ((tokens.take 10).flatten).takeWhile (fun c => !is_stop_char c) =
        ((tokens.take 10).flatten).takeWhile (fun c => !c.isWhitespace) := by
      apply takeWhile_congr_mem
      intro c hc
      by_cases hcw : c.isWhitespace = true
      · rcases hws c hc hcw with h | h <;> subst h <;> decide
      · rw [Bool.not_eq_true] at hcw
        have h1 : (c == '\n') = false := by
          rw [beq_eq_false_iff_ne]
          intro h
          subst h
          exact absurd hcw (by decide)
        have h2 : (c == ' ') = false := by
          rw [beq_eq_false_iff_ne]
          intro h
          subst h
          exact absurd hcw (by decide)
        simp [is_stop_char, h1, h2, hcw]
    rw [hA]
    have hmem : ∀ c ∈ ((tokens.take 10).flatten).takeWhile
        (fun c => !c.isWhitespace), c.isWhitespace = false := by
      intro c hc
      have := List.mem_takeWhile_imp hc
      simpa using this
    rw [strip_chars_eq_self _ hmem]
    cases hl : (tokens.take 10).flatten with
    | nil => rfl
    | cons a l =>
      have hwa : a.isWhitespace = false := hhead a (by rw [hl]; rfl)
      have hra : (a == '\n') = false := by
        rw [beq_eq_false_iff_ne]
        intro h
        subst h
        exact absurd hwa (by decide)
      rw [List.takeWhile_cons, List.takeWhile_cons]
      simp only [hra, Bool.not_false, if_true]
      rw [List.dropWhile_cons, hwa]
      simp only [Bool.false_eq_true, if_false]
      rw [List.takeWhile_cons]
      simp only [hwa, Bool.not_false, if_true]
      congr 1
      rw [List.takeWhile_takeWhile]
      congr 1
      apply takeWhile_congr_mem
      intro c _
      cases hcw : c.isWhitespace with
      | true => simp [hcw]
      | false =>
        have hcr : (c == '\n') = false := by
          rw [beq_eq_false_iff_ne]
          intro h
          subst h
          exact absurd hcw (by decide)
        simp [hcr, hcw]
  · show (⟨strip_chars (llama_text tokens)⟩ : String) =
      ⟨strip_chars (llama_text (tokens.take 10))⟩
    unfold llama_text
    rw [List.take_take, min_self]

theorem C7_witness :
    get_llm_move (.ok [['e', '2'], ['e', '4', ' ', 'x', 'y']]) = "e2e4" ∧
    get_llm_move (.ok [['e', '2'], ['e', '4', ' ', 'x', 'y']]) =
      get_llm_move (.ok ([['e', '2'], ['e', '4', ' ', 'x', 'y']].take 10)) :=
  ⟨(C7_candidate_extraction [['e', '2'], ['e', '4', ' ', 'x', 'y']]
      (by decide) (by decide)).1,
   (C7_candidate_extraction [['e', '2'], ['e', '4', ' ', 'x', 'y']]
      (by decide) (by decide)).2⟩

/-- C7 as stated is false: a single model token longer than 10 characters
passes the `max_tokens=10` bound untouched, so the extracted candidate is
not capped at 10 characters; and a completion beginning with a space yields
the empty candidate, not the first whitespace-delimited token. -/
theorem C7_counterexample :
    10 < (get_llm_move (.ok [['a', 'b', 'c', 'd', 'e', 'f', 'g', 'h', 'i',
      'j', 'k', 'l']])).length ∧
    get_llm_move (.ok [[' ', 'e', '2', 'e', '4']]) = "" ∧
    first_ws_token ((([[' ', 'e', '2', 'e', '4']] :
      List (List Char)).take 10).flatten) = ['e', '2', 'e', '4'] := by
  refine ⟨by decide, by decide, by decide⟩

/-- C6 (corrected): `Move.from_uci` accepts exactly the tokens of
`uciAccepts` — the null token `0000`; a four-character drop (case-insensitive
piece letter, `@`, lowercase square); or a lowercase source square and a
DISTINCT lowercase destination square, optionally followed by a lowercase
promotion letter. In particular square letters are not accepted
case-insensitively, contrary to the spec sentence. -/
theorem C6_parser_accepts_exactly (uci : String) :
    (Move.from_uci uci).isSome = uciAccepts uci := by
  obtain ⟨cs⟩ := uci
  show (Move.from_uci_chars cs).isSome = uciAccepts ⟨cs⟩
  rcases cs with _ | ⟨a, _ | ⟨b, _ | ⟨c, _ | ⟨d, _ | ⟨e, _ | ⟨g, rest⟩⟩⟩⟩⟩⟩
  · decide
  · show (Move.from_uci_chars [a]).isSome = false
    unfold Move.from_uci_chars
    rw [if_neg (show ¬([a] = ['0', '0', '0', '0']) by simp),
      if_neg (show ¬(([a] : List Char).length = 4 ∧
        ([a] : List Char).get? 1 = some '@') by simp),
      if_neg (show ¬(4 ≤ ([a] : List Char).length ∧
        ([a] : List Char).length ≤ 5) by simp)]
    rfl
  · show (Move.from_uci_chars [a, b]).isSome = false
    unfold Move.from_uci_chars
    rw [if_neg (show ¬([a, b] = ['0', '0', '0', '0']) by simp),
      if_neg (show ¬(([a, b] : List Char).length = 4 ∧
        ([a, b] : List Char).get? 1 = some '@') by simp),
      if_neg (show ¬(4 ≤ ([a, b] : List Char).length ∧
        ([a, b] : List Char).length ≤ 5) by simp)]
    rfl
  · show (Move.from_uci_chars [a, b, c]).isSome = false
    unfold Move.from_uci_chars
    rw [if_neg (show ¬([a, b, c] = ['0', '0', '0', '0']) by simp),
      if_neg (show ¬(([a, b, c] : List Char).length = 4 ∧
        ([a, b, c] : List Char).get? 1 = some '@') by simp),
      if_neg (show ¬(4 ≤ ([a, b, c] : List Char).length ∧
        ([a, b, c] : List Char).length ≤ 5) by simp)]
    rfl
  · by_cases h0 : a = '0' ∧ b = '0' ∧ c = '0' ∧ d = '0'
    · obtain ⟨rfl, rfl, rfl, rfl⟩ := h0
      decide
    · have hne : ¬([a, b, c, d] = ['0', '0', '0', '0']) := by
        simpa using h0
      show (Move.from_uci_chars [a, b, c, d]).isSome =
        (if a = '0' ∧ b = '0' ∧ c = '0' ∧ d = '0' then true
         else if b = '@' then
           isPromoChar a.toLower && (isFileChar c && isRankChar d)
         else
           (isFileChar a && isRankChar b) &&
             ((isFileChar c && isRankChar d) && !(a == c && b == d)))
      unfold Move.from_uci_chars
      rw [if_neg hne, if_neg h0]
      by_cases hb : b = '@'
      · subst hb
        rw [if_pos (show ([a, '@', c, d] : List Char).length = 4 ∧
            ([a, '@', c, d] : List Char).get? 1 = some '@' from ⟨rfl, rfl⟩),
          if_pos rfl]
        show (parse_drop a [c, d]).isSome = _
        exact parse_drop_isSome a c d
      · rw [if_neg (show ¬(([a, b, c, d] : List Char).length = 4 ∧
            ([a, b, c, d] : List Char).get? 1 = some '@') from
            fun hh => hb (Option.some.inj hh.2)),
          if_neg hb,
          if_pos (show 4 ≤ ([a, b, c, d] : List Char).length ∧
            ([a, b, c, d] : List Char).length ≤ 5 from
            ⟨by simp, by simp⟩)]
        show (parse_squares [a, b] [c, d] (some none)).isSome = _
        rw [parse_squares_isSome]
        simp
  · show (Move.from_uci_chars [a, b, c, d, e]).isSome =
      ((isFileChar a && isRankChar b) &&
        ((isFileChar c && isRankChar d) &&
          (isPromoChar e && !(a == c && b == d))))
    unfold Move.from_uci_chars
    rw [if_neg (show ¬([a, b, c, d, e] = ['0', '0', '0', '0']) by simp),
      if_neg (show ¬(([a, b, c, d, e] : List Char).length = 4 ∧
        ([a, b, c, d, e] : List Char).get? 1 = some '@') by simp),
      if_pos (show 4 ≤ ([a, b, c, d, e] : List Char).length ∧
        ([a, b, c, d, e] : List Char).length ≤ 5 from ⟨by simp, by simp⟩)]
    show (parse_squares [a, b] [c, d]
      ((piece_index e).map some)).isSome = _
    rw [parse_squares_isSome]
    have hmap : ((piece_index e).map some).isSome = (piece_index e).isSome :=
      by cases piece_index e <;> rfl
    rw [hmap, piece_isSome]
  · show (Move.from_uci_chars (a :: b :: c :: d :: e :: g :: rest)).isSome =
      false
    unfold Move.from_uci_chars
    rw [if_neg (show
        ¬(a :: b :: c :: d :: e :: g :: rest = ['0', '0', '0', '0']) by simp),
      if_neg (show ¬((a :: b :: c :: d :: e :: g :: rest).length = 4 ∧
        (a :: b :: c :: d :: e :: g :: rest).get? 1 = some '@') from by
        rintro ⟨h4, -⟩
        simp [List.length_cons] at h4),
      if_neg (show ¬(4 ≤ (a :: b :: c :: d :: e :: g :: rest).length ∧
        (a :: b :: c :: d :: e :: g :: rest).length ≤ 5) from by
        rintro ⟨-, h5⟩
        simp [List.length_cons] at h5)]
    rfl

/-- C6 as stated is false: the spec's format treats square letters
case-insensitively, but the parser rejects uppercase squares; conversely the
null token `0000` is outside the spec's format yet parses. -/
theorem C6_counterexample :
    specMoveFormat "E2E4" = true ∧ (Move.from_uci "E2E4").isSome = false ∧
    specMoveFormat "0000" = false ∧ (Move.from_uci "0000").isSome = true := by
  refine ⟨by decide, by decide, by decide, by decide⟩

theorem C9_witness :
    get_player_choice "1" = some ("LLaMA3", "Gemma") ∧
    current_model_name "LLaMA3" "Gemma" true = "LLaMA3" ∧
    current_model_name "LLaMA3" "Gemma" false = "Gemma" :=
  ⟨C9_choice_binds_first_component_to_white.2.1,
   (C9_choice_binds_first_component_to_white.1 "1" ("LLaMA3", "Gemma")
      C9_choice_binds_first_component_to_white.2.1).2.2.1,
   (C9_choice_binds_first_component_to_white.1 "1" ("LLaMA3", "Gemma")
      C9_choice_binds_first_component_to_white.2.1).2.2.2⟩

end LLMChessArena
